import Mathlib

/-!
Verification of the weighted spatial-partitioning engine of Project Oasis
(`backend/utils.py`): the solver `_compute_weighted_areas`, the vectorizer
`_get_vector_boundaries`, and the orchestrator `calculate_weighted_polygons`.

The Python code is embedded shallowly over exact rationals:

* numpy float arrays become `List ℚ` / `List Int` / `List Nat`, with numpy
  operations (`linspace`, `meshgrid`+`ravel`, `bincount`, boolean-mask
  scatter assignment, `interp`) translated element by element;
* external geometry / numerics libraries that the code calls as black boxes
  are parameters of the embedding: `inside` models
  `matplotlib.path.Path(boundary_xy).contains_points` membership for one
  point, `fc` models `skimage.measure.find_contours` on a flattened
  region mask, `ap` models `skimage.measure.approximate_polygon`,
  `toXY` / `toLonLat` model the two fixed `pyproj` transformers, and
  `fpow c d` models the float power `c ** d` used in the damped factor
  update (its value never influences the properties proved here);
* the float comparison `dists / weights` + `argmin` is embedded by the
  cross-multiplied comparison `d2 a * f b ^ 2 < d2 b * f a ^ 2`, which is
  proved below (`wdLt_iff_realWeightedDist`) to coincide with the real
  comparison `sqrt (d2 a) / f a < sqrt (d2 b) / f b` whenever the factors
  are positive, as they always are in the code;
* Python exceptions become `Except PyErr`.
-/

/-- A planar or geographic coordinate pair, exact-rational stand-in for the
float pairs handled by numpy. -/
abbrev Point : Type := ℚ × ℚ

/-- The error outcomes the Python code can produce on the paths relevant
here: the orchestrator's input-length `ValueError` (the spec's
ValidationError), the solver's "Bounding shape has no area" `ValueError`
(the spec's EmptyRegionError), the `ValueError` numpy raises when
`np.min` reduces a zero-size array (empty boundary list), and the
`NameError` hit after a zero-iteration `for` loop when the loop variable
and `assignments` are read unbound. -/
inductive PyErr : Type where
  | validation : PyErr
  | emptyRegion : PyErr
  | numpyReduction : PyErr
  | nameError : PyErr
deriving DecidableEq, Repr

/-- A Python value used as a dictionary key: the orchestrator's output dict
is keyed by `int` loop indices, while callers supply identifiers that may
be strings. -/
inductive PyKey : Type where
  | int : Int → PyKey
  | str : String → PyKey
deriving DecidableEq, Repr

deriving instance DecidableEq for Except

/-- Embeds `np.linspace a b n`: `n` evenly spaced samples from `a` to `b`
inclusive (`[]` for `n = 0`, `[a]` for `n = 1`). -/
def linspace (a b : ℚ) : Nat → List ℚ
  | 0 => []
  | 1 => [a]
  | n + 2 => (List.range (n + 2)).map (fun i => a + (b - a) * i / (n + 1))

/-- Embeds the axis construction of `_compute_weighted_areas`
(utils.py lines 109-114): per-axis min/max of the boundary vertices
(`np.min`/`np.max` with `axis=0`), 5% padding, and one `linspace` per axis.
Returns `([], [])` on an empty boundary; `compute_weighted_areas` never
consults that case because it errors first, as numpy does. -/
def gridAxes (boundary : List Point) (res : Nat) : List ℚ × List ℚ :=
  match boundary with
  | [] => ([], [])
  | b0 :: bs =>
    let minX := bs.foldl (fun m p => min m p.1) b0.1
    let maxX := bs.foldl (fun m p => max m p.1) b0.1
    let minY := bs.foldl (fun m p => min m p.2) b0.2
    let maxY := bs.foldl (fun m p => max m p.2) b0.2
    let padX := (maxX - minX) * (5 / 100)
    let padY := (maxY - minY) * (5 / 100)
    (linspace (minX - padX) (maxX + padX) res, linspace (minY - padY) (maxY + padY) res)

/-- Embeds `np.meshgrid(x, y)` + `ravel` + `vstack(...).T`
(utils.py lines 115-116): the row-major lattice of the two axes, so entry
`r * res + c` is `(x[c], y[r])`. -/
def gridLattice (boundary : List Point) (res : Nat) : List Point :=
  (List.range res).flatMap (fun r => (List.range res).map (fun c =>
    ((gridAxes boundary res).1.getD c 0, (gridAxes boundary res).2.getD r 0)))

/-- Embeds `mask = boundary_path.contains_points(grid_coords)`
(utils.py line 118), with `inside` the abstract point-in-polygon test. -/
def latticeMask (boundary : List Point) (res : Nat) (inside : Point → Bool) : List Bool :=
  (gridLattice boundary res).map inside

/-- Embeds `grid_coords_inside = grid_coords[mask]` (utils.py line 119). -/
def insideLattice (boundary : List Point) (res : Nat) (inside : Point → Bool) : List Point :=
  (gridLattice boundary res).filter inside

/-- Embeds `np.maximum(target_weights, 0)` (utils.py line 123). -/
def clampedWeights (ws : List ℚ) : List ℚ :=
  ws.map (fun w => max w 0)

/-- Embeds `target_pixel_counts = (target_weights_safe / total) * n_pixels_inside`
(utils.py lines 129-130). -/
def targetCountsOf (ws : List ℚ) (nIn : Nat) : List ℚ :=
  ((clampedWeights ws).map (fun w => w / (clampedWeights ws).sum)).map
    (fun p => p * (nIn : ℚ))

/-- Squared Euclidean distance between two planar points, the radicand of
the distances `scipy.spatial.distance.cdist` computes (utils.py line 138). -/
def dist2 (p q : Point) : ℚ :=
  (p.1 - q.1) ^ 2 + (p.2 - q.2) ^ 2

/-- Embeds the comparison of two entries of
`weighted_dists = dists / current_weights[:, np.newaxis]`
(utils.py line 139) in cross-multiplied, square-root-free form:
site `a` is strictly closer than site `b` to the grid point `g` iff
`d2 a * f b ^ 2 < d2 b * f a ^ 2`.  `wdLt_iff_realWeightedDist` below
proves this equivalent to `sqrt (d2 a) / f a < sqrt (d2 b) / f b` for
positive factors. -/
def wdLt (pts : List Point) (factors : List ℚ) (g : Point) (a b : Nat) : Bool :=
  decide (dist2 (pts.getD a (0, 0)) g * (factors.getD b 0) ^ 2 <
    dist2 (pts.getD b (0, 0)) g * (factors.getD a 0) ^ 2)

/-- Embeds `np.argmin` over `n` values compared by the strict order `lt`:
scan left to right keeping the current best, replacing it only on a
strictly smaller value, so the first minimum wins. -/
def argminScan (lt : Nat → Nat → Bool) (n : Nat) : Nat :=
  (List.range n).foldl (fun best i => if lt i best then i else best) 0

/-- Embeds one column of `np.argmin(weighted_dists, axis=0)`
(utils.py line 140): the first site index minimizing the weighted distance
to the grid point `g`. -/
def assignPoint (pts : List Point) (factors : List ℚ) (g : Point) : Nat :=
  argminScan (wdLt pts factors g) pts.length

/-- Embeds `assignments = np.argmin(weighted_dists, axis=0)`
(utils.py lines 138-140): one argmin per inside grid point. -/
def assignStep (pts : List Point) (factors : List ℚ) (gin : List Point) : List Nat :=
  gin.map (assignPoint pts factors)

/-- Embeds `np.bincount(assignments, minlength=n_points)`
(utils.py line 141). -/
def bincount (n : Nat) (asg : List Nat) : List Nat :=
  (List.range n).map (fun i => asg.count i)

/-- Embeds `max_error = np.max(np.abs((actual - target) / n_pixels_inside))`
(utils.py lines 142-143); the fold base `0` is never the maximum since
every entry is an absolute value. -/
def maxAbsPropError (targetCounts : List ℚ) (counts : List Nat) (nIn : Nat) : ℚ :=
  (((List.range counts.length).map
    (fun i => |((counts.getD i 0 : ℚ) - targetCounts.getD i 0) / (nIn : ℚ)|)).foldr max 0)

/-- The inline constant `1e-9` the code pins zero-weight sites' factors to
(utils.py lines 132 and 150). -/
def factorEpsilon : ℚ := 1e-9

/-- Embeds `current_weights = np.ones(n_points)` followed by
`current_weights[target_weights <= 0] = 1e-9` (utils.py lines 131-132). -/
def initFactors (n : Nat) (ws : List ℚ) : List ℚ :=
  (List.range n).map (fun i => if ws.getD i 0 ≤ 0 then factorEpsilon else 1)

/-- Embeds one factor update (utils.py lines 147-150):
`correction = target / np.maximum(actual, 1)`,
`current_weights *= correction ** damping_factor` (the float power is the
abstract `fpow`), then the re-pin `current_weights[target_weights <= 0] = 1e-9`. -/
def updateFactors (damp : ℚ) (fpow : ℚ → ℚ → ℚ) (targetCounts : List ℚ)
    (counts : List Nat) (ws : List ℚ) (factors : List ℚ) : List ℚ :=
  let stepped := (List.range factors.length).map (fun i =>
    factors.getD i 0 * fpow (targetCounts.getD i 0 / max ((counts.getD i 0 : Nat) : ℚ) 1) damp)
  (List.range stepped.length).map (fun i =>
    if ws.getD i 0 ≤ 0 then factorEpsilon else stepped.getD i 0)

/-- Embeds the `for i in range(max_iterations)` loop of
`_compute_weighted_areas` (utils.py lines 137-150), called with
`remaining ≥ 1`.  Returns the Python variables still live after the loop:
the last `assignments`, the last `max_error`, and the number of iterations
executed (`i + 1`).  An iteration either breaks on `max_error < tolerance`,
is the final one (`remaining` exhausted; the factor update it still
performs is dead since the factors are not returned), or updates and
re-pins the factors and continues. -/
def solveLoopAux (pts gin : List Point) (ws targetCounts : List ℚ) (tol damp : ℚ)
    (fpow : ℚ → ℚ → ℚ) : Nat → List ℚ → Nat → List Nat × ℚ × Nat
  | 0, _, used => ([], 0, used)
  | remaining + 1, factors, used =>
    let asg := assignStep pts factors gin
    let counts := bincount pts.length asg
    let err := maxAbsPropError targetCounts counts gin.length
    if err < tol then (asg, err, used + 1)
    else
      match remaining with
      | 0 => (asg, err, used + 1)
      | r + 1 =>
        solveLoopAux pts gin ws targetCounts tol damp fpow (r + 1)
          (updateFactors damp fpow targetCounts counts ws factors) (used + 1)

/-- Embeds `assignment_grid = np.full((res, res), -1.0)` followed by
`assignment_grid[mask_2d] = assignments` (utils.py lines 153-155): walk the
row-major mask, consuming one assignment per `true` cell and writing the
sentinel `-1` elsewhere.  The `true`-with-exhausted-assignments case never
arises (numpy would raise); it falls back to the sentinel for totality. -/
def scatterMasked : List Bool → List Int → List Int
  | [], _ => []
  | true :: ms, a :: as => a :: scatterMasked ms as
  | true :: ms, [] => (-1) :: scatterMasked ms []
  | false :: ms, as => (-1) :: scatterMasked ms as

/-- Embeds `_compute_weighted_areas` (utils.py lines 105-156).  Result on
success: the flattened row-major `resolution × resolution` assignment grid
(site index, or `-1` unassigned) and the two axis arrays. -/
def compute_weighted_areas (pts : List Point) (ws : List ℚ) (boundary : List Point)
    (res maxIter : Nat) (tol damp : ℚ) (fpow : ℚ → ℚ → ℚ) (inside : Point → Bool) :
    Except PyErr (List Int × (List ℚ × List ℚ)) :=
  if boundary = [] then .error .numpyReduction
  else
    let axes := gridAxes boundary res
    let maskL := latticeMask boundary res inside
    let gin := insideLattice boundary res inside
    if gin.length = 0 then .error .emptyRegion
    else
      let total := (clampedWeights ws).sum
      if total = 0 then .ok (List.replicate (res * res) (-1), axes)
      else
        let targetCounts := targetCountsOf ws gin.length
        match maxIter with
        | 0 => .error .nameError
        | m + 1 =>
          let r := solveLoopAux pts gin ws targetCounts tol damp fpow (m + 1)
            (initFactors pts.length ws) 0
          .ok (scatterMasked maskL (r.1.map Int.ofNat), axes)

/-- Embeds `np.interp(v, np.arange(len(fp)), fp)` (utils.py lines 177-182):
clamped piecewise-linear interpolation of an axis array at pixel
coordinate `v`. -/
def npInterp (fp : List ℚ) (v : ℚ) : ℚ :=
  match fp with
  | [] => 0
  | f0 :: _ =>
    if v ≤ 0 then f0
    else if ((fp.length : ℚ) - 1) ≤ v then fp.getLastD 0
    else
      let j := (⌊v⌋).toNat
      let a := fp.getD j 0
      let b := fp.getD (j + 1) 0
      a + (v - (j : ℚ)) * (b - a)

/-- Embeds `region_mask = (grid == i).astype(np.float64)`
(utils.py line 164) on the flattened grid. -/
def regionMask (grid : List Int) (i : Nat) : List ℚ :=
  grid.map (fun v => if v = (i : Int) then 1 else 0)

/-- Embeds the per-site body of `_get_vector_boundaries`
(utils.py lines 164-183): run the contour tracer `fc` (models
`find_contours(mask, level=0.5)`) on the site's region mask, simplify each
contour with `ap` (models `approximate_polygon`) when the tolerance is
positive, and map each `(row, col)` contour point to planar coordinates by
interpolating the two axis arrays. -/
def regionSegments (fc : List ℚ → List (List Point)) (ap : ℚ → List Point → List Point)
    (grid : List Int) (xs ys : List ℚ) (st : ℚ) (i : Nat) : List (List Point) :=
  (fc (regionMask grid i)).map (fun contour =>
    let simplified := if 0 < st then ap st contour else contour
    simplified.map (fun rc => (npInterp xs rc.2, npInterp ys rc.1)))

/-- Embeds `_get_vector_boundaries` (utils.py lines 158-191): the dict
`{i: region_segments for i in range(n_points)}` as a list indexed by site. -/
def getVectorBoundaries (fc : List ℚ → List (List Point)) (ap : ℚ → List Point → List Point)
    (grid : List Int) (xs ys : List ℚ) (n : Nat) (st : ℚ) : List (List (List Point)) :=
  (List.range n).map (regionSegments fc ap grid xs ys st)

/-- Embeds `calculate_weighted_polygons` (utils.py lines 193-243):
length validation, projection of boundary and sites by the abstract
transformer `toXY`, the solver, the vectorizer, and the final loop
`for i, point_id in enumerate(point_ids): output_polygons[i] = ...`
building the output dict — keyed by the Python int `i`, with each segment
back-projected pointwise by `toLonLat`. -/
def calculate_weighted_polygons (toXY toLonLat : Point → Point)
    (containsPoint : List Point → Point → Bool)
    (fc : List ℚ → List (List Point)) (ap : ℚ → List Point → List Point)
    (fpow : ℚ → ℚ → ℚ)
    (point_ids : List PyKey) (points_lon_lat : List Point) (point_weights : List ℚ)
    (boundary_lon_lat : List Point)
    (res maxIter : Nat) (tol damp st : ℚ) :
    Except PyErr (List (PyKey × List (List Point))) :=
  if ¬(point_ids.length = points_lon_lat.length ∧
       points_lon_lat.length = point_weights.length) then
    .error .validation
  else
    let n := point_ids.length
    let boundary_xy := boundary_lon_lat.map toXY
    let points_xy := points_lon_lat.map toXY
    match compute_weighted_areas points_xy point_weights boundary_xy res maxIter tol damp
        fpow (containsPoint boundary_xy) with
    | .error e => .error e
    | .ok (grid, (xs, ys)) =>
      let vb := getVectorBoundaries fc ap grid xs ys n st
      .ok ((List.range n).map (fun (i : Nat) =>
        (PyKey.int (i : Int), (vb.getD i []).map (fun seg => seg.map toLonLat))))

/-! ### Concrete instantiations used by witnesses and counterexamples -/

/-- A concrete axis-aligned square boundary ring (implicitly closed),
used to instantiate the abstract inputs on concrete runs. -/
def sqBoundary : List Point := [(0, 0), (10, 0), (10, 10), (0, 10)]

/-- The exact point-in-polygon test for the open square `(0,10) × (0,10)`:
the value `matplotlib.path.Path(sqBoundary).contains_points` yields on
points strictly inside or strictly outside that square. -/
def sqInside : Point → Bool := fun p =>
  decide (0 < p.1 ∧ p.1 < 10 ∧ 0 < p.2 ∧ p.2 < 10)

/-- The boundary-indexed form of `sqInside`, instantiating the orchestrator's
abstract containment parameter. -/
def sqContains : List Point → Point → Bool := fun _ => sqInside

/-- A concrete instantiation of the abstract float power `c ** d`; none of
the properties stated here depend on its value. -/
def powId : ℚ → ℚ → ℚ := fun c _ => c

/-- The real-valued weighted distance the float code actually compares
(utils.py lines 138-139): the Euclidean distance `sqrt (dist2)` from site
`i` to the grid point `g`, divided by site `i`'s current factor.  Used
only in specifications; the executable embedding compares the equivalent
cross-multiplied form `wdLt`. -/
noncomputable def realWeightedDist (pts : List Point) (factors : List ℚ) (g : Point)
    (i : Nat) : ℝ :=
  Real.sqrt ((dist2 (pts.getD i (0, 0)) g : ℚ) : ℝ) / ((factors.getD i 0 : ℚ) : ℝ)

/-! ### General helper lemmas -/

/-- Reading a map over `List.range n` below the bound evaluates the mapped
function. -/
theorem getD_map_range {α : Type} (f : Nat → α) (d : α) {n i : Nat} (h : i < n) :
    ((List.range n).map f).getD i d = f i := by
  have hl : i < ((List.range n).map f).length := by simpa using h
  rw [List.getD_eq_getElem _ _ hl]
  simp

/-! ### C7: length validation happens first -/

/-- C7.  If the three input lists do not all have the same length,
`calculate_weighted_polygons` fails with the validation error, whatever the
projection, containment, contouring and power functions do — i.e. before
any projection or raster work can influence the outcome — and produces no
result. -/
theorem c7_length_validation (toXY toLonLat : Point → Point)
    (containsPoint : List Point → Point → Bool)
    (fc : List ℚ → List (List Point)) (ap : ℚ → List Point → List Point)
    (fpow : ℚ → ℚ → ℚ) (ids : List PyKey) (pts : List Point) (ws : List ℚ)
    (bnd : List Point) (res mi : Nat) (tol damp st : ℚ)
    (h : ¬(ids.length = pts.length ∧ pts.length = ws.length)) :
    calculate_weighted_polygons toXY toLonLat containsPoint fc ap fpow ids pts ws bnd
      res mi tol damp st = .error .validation := by
  unfold calculate_weighted_polygons
  rw [if_pos h]

/-- Witness for C7: one id but no site positions and no weights. -/
theorem c7_length_validation_witness :
    ¬(([PyKey.str "a"].length = ([] : List Point).length ∧
       ([] : List Point).length = ([] : List ℚ).length)) ∧
    calculate_weighted_polygons id id sqContains (fun _ => []) (fun _ c => c) powId
      [PyKey.str "a"] [] [] sqBoundary 3 1 (1/100) (1/5) 2 = .error .validation :=
  ⟨by decide, c7_length_validation id id sqContains (fun _ => []) (fun _ c => c) powId
    [PyKey.str "a"] [] [] sqBoundary 3 1 (1/100) (1/5) 2 (by decide)⟩

/-! ### C6: EmptyRegionError exactly when no lattice point is inside -/

/-- C6.  For a nonempty boundary ring, the solver fails with the
empty-region error exactly when zero lattice points pass the
point-in-polygon test; on that error no assignment grid is produced. -/
theorem c6_empty_region_iff (pts : List Point) (ws : List ℚ) (bnd : List Point)
    (res mi : Nat) (tol damp : ℚ) (fpow : ℚ → ℚ → ℚ) (inside : Point → Bool)
    (hb : bnd ≠ []) :
    compute_weighted_areas pts ws bnd res mi tol damp fpow inside = .error .emptyRegion ↔
      (insideLattice bnd res inside).length = 0 := by
  by_cases h0 : (insideLattice bnd res inside).length = 0
  · simp [compute_weighted_areas, hb, h0]
  · simp only [compute_weighted_areas, if_neg hb, if_neg h0]
    constructor
    · intro h
      split at h <;> try split at h
      all_goals simp_all
    · intro h
      exact absurd h h0

/-- Witness for C6: the square boundary with a containment test that
rejects every lattice point, so the call fails with the empty-region
error. -/
theorem c6_empty_region_iff_witness :
    sqBoundary ≠ [] ∧
    (compute_weighted_areas [(5, 5)] [1] sqBoundary 3 5 (1/100) (1/5) powId
        (fun _ => false) = .error .emptyRegion ↔
      (insideLattice sqBoundary 3 (fun _ => false)).length = 0) :=
  ⟨by decide, c6_empty_region_iff [(5, 5)] [1] sqBoundary 3 5 (1/100) (1/5) powId
    (fun _ => false) (by decide)⟩

/-! ### C5: all-zero clamped weights return an all-unassigned grid -/

/-- C5.  When the clamped weights sum to zero and the rasterization found
at least one inside point, the solver succeeds with the all-sentinel grid,
independently of the iteration budget, tolerance, damping and power
function — in particular no solver iteration influences the result. -/
theorem c5_zero_weights_unassigned (pts : List Point) (ws : List ℚ) (bnd : List Point)
    (res : Nat) (inside : Point → Bool) (hb : bnd ≠ [])
    (hin : (insideLattice bnd res inside).length ≠ 0)
    (hw : (clampedWeights ws).sum = 0) :
    ∀ (mi : Nat) (tol damp : ℚ) (fpow : ℚ → ℚ → ℚ),
      compute_weighted_areas pts ws bnd res mi tol damp fpow inside =
        .ok (List.replicate (res * res) (-1), gridAxes bnd res) := by
  intro mi tol damp fpow
  simp [compute_weighted_areas, hb, hin, hw]

unseal Rat.add Rat.mul Rat.sub Rat.inv Rat.ofScientific in
/-- Witness for C5: weights `[0, -1]` inside the square, with the
conclusion instantiated at a concrete iteration budget. -/
theorem c5_zero_weights_unassigned_witness :
    sqBoundary ≠ [] ∧
    (insideLattice sqBoundary 3 sqInside).length ≠ 0 ∧
    (clampedWeights [0, -1]).sum = 0 ∧
    compute_weighted_areas [(5, 5), (2, 2)] [0, -1] sqBoundary 3 7 (1/100) (1/5) powId
      sqInside = .ok (List.replicate (3 * 3) (-1), gridAxes sqBoundary 3) :=
  ⟨by decide, by decide, by decide,
    c5_zero_weights_unassigned [(5, 5), (2, 2)] [0, -1] sqBoundary 3 sqInside
      (by decide) (by decide) (by decide) 7 (1/100) (1/5) powId⟩

/-! ### C10: a zero iteration budget crashes the solver -/

/-- C10.  With a positive clamped-weight total, at least one inside lattice
point and `max_iterations = 0`, the solver does not return a grid: the
Python `for` body never runs, and the post-loop reads of the loop variable
`i` (line 151) and of `assignments` (line 155) hit unbound names, so the
call fails with a `NameError`. -/
theorem c10_zero_iterations_crash (pts : List Point) (ws : List ℚ) (bnd : List Point)
    (res : Nat) (tol damp : ℚ) (fpow : ℚ → ℚ → ℚ) (inside : Point → Bool)
    (hb : bnd ≠ []) (hin : (insideLattice bnd res inside).length ≠ 0)
    (hw : (clampedWeights ws).sum ≠ 0) :
    compute_weighted_areas pts ws bnd res 0 tol damp fpow inside = .error .nameError := by
  simp [compute_weighted_areas, hb, hin, hw]

unseal Rat.add Rat.mul Rat.sub Rat.inv Rat.ofScientific in
/-- Witness for C10: one unit-weight site in the square with a zero
iteration budget. -/
theorem c10_zero_iterations_crash_witness :
    sqBoundary ≠ [] ∧
    (insideLattice sqBoundary 3 sqInside).length ≠ 0 ∧
    (clampedWeights [1]).sum ≠ 0 ∧
    compute_weighted_areas [(5, 5)] [1] sqBoundary 3 0 (1/100) (1/5) powId sqInside =
      .error .nameError :=
  ⟨by decide, by decide, by decide,
    c10_zero_iterations_crash [(5, 5)] [1] sqBoundary 3 (1/100) (1/5) powId sqInside
      (by decide) (by decide) (by decide)⟩

/-! ### C1: the output mapping is keyed by site index, not site id -/

unseal Rat.add Rat.mul Rat.sub Rat.inv Rat.ofScientific in
/-- Counterexample to C1 as stated.  A valid call with the single site
identifier `"a"` produces the mapping `{0: []}`: its only key is the
Python int `0` from `enumerate`, not the caller-supplied identifier
`"a"`. -/
theorem c1_counterexample :
    calculate_weighted_polygons id id sqContains (fun _ => []) (fun _ c => c) powId
      [PyKey.str "a"] [(5, 5)] [1] sqBoundary 3 1 (1/100) (1/5) 2
      = .ok [(PyKey.int 0, [])] ∧ PyKey.int 0 ≠ PyKey.str "a" :=
  ⟨by decide, by decide⟩

/-- C1 (amended).  On every successful call the output mapping's keys are
the site positions `0, …, n-1` (as Python ints) in order, where `n` is the
number of supplied identifiers; and a site whose vectorization produced
zero contour segments is mapped to an empty ring list. -/
theorem c1_keys_are_indices (toXY toLonLat : Point → Point)
    (containsPoint : List Point → Point → Bool)
    (fc : List ℚ → List (List Point)) (ap : ℚ → List Point → List Point)
    (fpow : ℚ → ℚ → ℚ) (ids : List PyKey) (pts : List Point) (ws : List ℚ)
    (bnd : List Point) (res mi : Nat) (tol damp st : ℚ)
    (m : List (PyKey × List (List Point)))
    (hm : calculate_weighted_polygons toXY toLonLat containsPoint fc ap fpow ids pts ws
      bnd res mi tol damp st = .ok m) :
    m.map Prod.fst = (List.range ids.length).map (fun i => PyKey.int (Int.ofNat i)) ∧
    ∀ i, i < ids.length → ∀ g xs ys,
      compute_weighted_areas (pts.map toXY) ws (bnd.map toXY) res mi tol damp fpow
        (containsPoint (bnd.map toXY)) = .ok (g, (xs, ys)) →
      regionSegments fc ap g xs ys st i = [] →
      (m.getD i (PyKey.int 0, [])).2 = [] := by
  unfold calculate_weighted_polygons at hm
  split at hm
  · exact absurd hm (by simp)
  · dsimp only at hm
    split at hm
    · exact absurd hm (by simp)
    · rename_i heq
      rw [Except.ok.injEq] at hm
      subst hm
      constructor
      · rw [List.map_map]
        rfl
      · intro i hi g xs ys hok hseg
        rw [heq] at hok
        rw [Except.ok.injEq, Prod.mk.injEq, Prod.mk.injEq] at hok
        obtain ⟨rfl, rfl, rfl⟩ := hok
        rw [getD_map_range _ _ hi]
        dsimp only
        rw [getVectorBoundaries, getD_map_range _ _ hi, hseg]
        rfl

unseal Rat.add Rat.mul Rat.sub Rat.inv Rat.ofScientific in
/-- Witness for the amended C1, at the same concrete call as the
counterexample. -/
theorem c1_keys_are_indices_witness :
    calculate_weighted_polygons id id sqContains (fun _ => []) (fun _ c => c) powId
      [PyKey.str "a"] [(5, 5)] [1] sqBoundary 3 1 (1/100) (1/5) 2
      = .ok [(PyKey.int 0, [])] ∧
    ([(PyKey.int 0, ([] : List (List Point)))].map Prod.fst =
      (List.range ([PyKey.str "a"] : List PyKey).length).map
        (fun i => PyKey.int (Int.ofNat i))) :=
  have hm : calculate_weighted_polygons id id sqContains (fun _ => []) (fun _ c => c) powId
      [PyKey.str "a"] [(5, 5)] [1] sqBoundary 3 1 (1/100) (1/5) 2
      = .ok [(PyKey.int 0, [])] := by decide
  ⟨hm, (c1_keys_are_indices id id sqContains (fun _ => []) (fun _ c => c) powId
    [PyKey.str "a"] [(5, 5)] [1] sqBoundary 3 1 (1/100) (1/5) 2
    [(PyKey.int 0, [])] hm).1⟩

/-! ### C8: factor pinning for nonpositive-weight sites -/

unseal Rat.add Rat.mul Rat.sub Rat.inv Rat.ofScientific in
/-- Counterexample to C8 as stated.  Sites `(100,100)` with weight `1` and
`(5,5)` with weight `0`, square boundary, resolution 3: the single inside
lattice point is `(5,5)` itself, at distance `0` from the zero-weight
site, whose weighted distance `0 / 1e-9 = 0` beats the positive-weight
site — so the zero-weight site 1 receives one assigned sample in the
returned grid, not zero. -/
theorem c8_counterexample :
    compute_weighted_areas [(100, 100), (5, 5)] [1, 0] sqBoundary 3 1 (1/100) (1/5)
      powId sqInside
      = .ok ([-1, -1, -1, -1, 1, -1, -1, -1, -1], ([-1/2, 5, 21/2], [-1/2, 5, 21/2])) ∧
    ([1, 0] : List ℚ).getD 1 0 ≤ 0 ∧
    ([-1, -1, -1, -1, 1, -1, -1, -1, -1] : List Int).count 1 = 1 :=
  ⟨by decide, by decide, by decide⟩

/-- C8 (amended).  A site whose input weight is nonpositive has its factor
equal to the fixed epsilon constant `1e-9` at initialization, and again
immediately after every factor update (the re-pin runs after the damped
multiplicative step in each iteration, via `updateFactors` inside
`solveLoopAux`); this does not guarantee the site wins zero samples, since
a weighted distance of `0 / 1e-9 = 0` can still be minimal. -/
theorem c8_factor_pinned (n i : Nat) (ws : List ℚ) (hi : i < n)
    (hw : ws.getD i 0 ≤ 0) :
    (initFactors n ws).getD i 0 = factorEpsilon ∧
    ∀ (damp : ℚ) (fpow : ℚ → ℚ → ℚ) (targetCounts : List ℚ) (counts : List Nat)
      (factors : List ℚ), i < factors.length →
      (updateFactors damp fpow targetCounts counts ws factors).getD i 0 = factorEpsilon := by
  constructor
  · unfold initFactors
    rw [getD_map_range _ _ hi, if_pos hw]
  · intro damp fpow tc cs fs hf
    unfold updateFactors
    have hlen : ((List.range fs.length).map (fun i =>
        fs.getD i 0 * fpow (tc.getD i 0 / max ((cs.getD i 0 : Nat) : ℚ) 1) damp)).length
        = fs.length := by simp
    rw [getD_map_range _ _ (by rw [hlen]; exact hf), if_pos hw]

unseal Rat.add Rat.mul Rat.sub Rat.inv Rat.ofScientific in
/-- Witness for the amended C8: site 1 with weight `0` among two sites,
with the update conclusion instantiated at concrete factors and counts. -/
theorem c8_factor_pinned_witness :
    (1 < 2 ∧ ([1, 0] : List ℚ).getD 1 0 ≤ 0) ∧
    (initFactors 2 [1, 0]).getD 1 0 = factorEpsilon ∧
    (updateFactors (1/5) powId [1, 0] [3, 4] [1, 0] [1, 1]).getD 1 0 = factorEpsilon :=
  ⟨⟨by decide, by decide⟩,
    (c8_factor_pinned 2 1 [1, 0] (by decide) (by decide)).1,
    (c8_factor_pinned 2 1 [1, 0] (by decide) (by decide)).2 (1/5) powId [1, 0] [3, 4]
      [1, 1] (by decide)⟩

/-! ### C2: convergence below tolerance or exhaustion of the budget -/

/-- Unfolding equation for one iteration of the solver loop. -/
theorem solveLoopAux_succ (pts gin : List Point) (ws tc : List ℚ) (tol damp : ℚ)
    (fpow : ℚ → ℚ → ℚ) (r : Nat) (f : List ℚ) (used : Nat) :
    solveLoopAux pts gin ws tc tol damp fpow (r + 1) f used =
      (if maxAbsPropError tc (bincount pts.length (assignStep pts f gin)) gin.length < tol
        then (assignStep pts f gin,
          maxAbsPropError tc (bincount pts.length (assignStep pts f gin)) gin.length,
          used + 1)
        else
          match r with
          | 0 => (assignStep pts f gin,
              maxAbsPropError tc (bincount pts.length (assignStep pts f gin)) gin.length,
              used + 1)
          | r' + 1 =>
            solveLoopAux pts gin ws tc tol damp fpow (r' + 1)
              (updateFactors damp fpow tc (bincount pts.length (assignStep pts f gin)) ws f)
              (used + 1)) := by
  rw [solveLoopAux.eq_def]

/-- The loop can only finish by converging (last max-error below tolerance)
or by consuming its entire remaining budget. -/
theorem solveLoopAux_exit (pts gin : List Point) (ws tc : List ℚ) (tol damp : ℚ)
    (fpow : ℚ → ℚ → ℚ) :
    ∀ (rem : Nat) (f : List ℚ) (used : Nat), 1 ≤ rem →
      (solveLoopAux pts gin ws tc tol damp fpow rem f used).2.1 < tol ∨
      (solveLoopAux pts gin ws tc tol damp fpow rem f used).2.2 = used + rem := by
  intro rem
  induction rem with
  | zero => intro f used h; exact absurd h (by omega)
  | succ r ih =>
    intro f used _
    rw [solveLoopAux_succ]
    split
    · rename_i h
      exact Or.inl h
    · match r with
      | 0 => exact Or.inr rfl
      | r' + 1 =>
        rcases ih (updateFactors damp fpow tc (bincount pts.length (assignStep pts f gin)) ws f)
          (used + 1) (by omega) with h1 | h2
        · exact Or.inl h1
        · right
          rw [h2]
          omega

/-- C2.  For every solver run with positive clamped-weight total, a
nonempty inside lattice and at least one allowed iteration, the call
succeeds with the grid scattered from the loop's last assignment, and
either the last maximum proportional error
`max_i |(A_i - T_i)| / n_inside` is below the tolerance or the loop ran
exactly `max_iterations` iterations. -/
theorem c2_convergence_or_exhaustion (pts : List Point) (ws : List ℚ) (bnd : List Point)
    (res mi : Nat) (tol damp : ℚ) (fpow : ℚ → ℚ → ℚ) (inside : Point → Bool)
    (hb : bnd ≠ []) (hin : (insideLattice bnd res inside).length ≠ 0)
    (hw : (clampedWeights ws).sum ≠ 0) (hm : 1 ≤ mi) :
    compute_weighted_areas pts ws bnd res mi tol damp fpow inside =
      .ok (scatterMasked (latticeMask bnd res inside)
        ((solveLoopAux pts (insideLattice bnd res inside) ws
            (targetCountsOf ws (insideLattice bnd res inside).length) tol damp fpow mi
            (initFactors pts.length ws) 0).1.map Int.ofNat),
        gridAxes bnd res) ∧
    ((solveLoopAux pts (insideLattice bnd res inside) ws
        (targetCountsOf ws (insideLattice bnd res inside).length) tol damp fpow mi
        (initFactors pts.length ws) 0).2.1 < tol ∨
     (solveLoopAux pts (insideLattice bnd res inside) ws
        (targetCountsOf ws (insideLattice bnd res inside).length) tol damp fpow mi
        (initFactors pts.length ws) 0).2.2 = mi) := by
  obtain ⟨m, rfl⟩ : ∃ m, mi = m + 1 := ⟨mi - 1, by omega⟩
  constructor
  · simp [compute_weighted_areas, hb, hin, hw]
  · have h := solveLoopAux_exit pts (insideLattice bnd res inside) ws
      (targetCountsOf ws (insideLattice bnd res inside).length) tol damp fpow (m + 1)
      (initFactors pts.length ws) 0 (by omega)
    simpa using h

unseal Rat.add Rat.mul Rat.sub Rat.inv Rat.ofScientific in
/-- Witness for C2: one unit-weight site in the square with a budget of
three iterations. -/
theorem c2_convergence_or_exhaustion_witness :
    (sqBoundary ≠ [] ∧ (insideLattice sqBoundary 3 sqInside).length ≠ 0 ∧
     (clampedWeights [1]).sum ≠ 0 ∧ 1 ≤ 3) ∧
    (compute_weighted_areas [(5, 5)] [1] sqBoundary 3 3 (1/100) (1/5) powId sqInside =
      .ok (scatterMasked (latticeMask sqBoundary 3 sqInside)
        ((solveLoopAux [(5, 5)] (insideLattice sqBoundary 3 sqInside) [1]
            (targetCountsOf [1] (insideLattice sqBoundary 3 sqInside).length) (1/100) (1/5)
            powId 3 (initFactors ([(5, 5)] : List Point).length [1]) 0).1.map Int.ofNat),
        gridAxes sqBoundary 3) ∧
    ((solveLoopAux [(5, 5)] (insideLattice sqBoundary 3 sqInside) [1]
        (targetCountsOf [1] (insideLattice sqBoundary 3 sqInside).length) (1/100) (1/5)
        powId 3 (initFactors ([(5, 5)] : List Point).length [1]) 0).2.1 < 1/100 ∨
     (solveLoopAux [(5, 5)] (insideLattice sqBoundary 3 sqInside) [1]
        (targetCountsOf [1] (insideLattice sqBoundary 3 sqInside).length) (1/100) (1/5)
        powId 3 (initFactors ([(5, 5)] : List Point).length [1]) 0).2.2 = 3)) :=
  ⟨⟨by decide, by decide, by decide, by decide⟩,
    c2_convergence_or_exhaustion [(5, 5)] [1] sqBoundary 3 3 (1/100) (1/5) powId sqInside
      (by decide) (by decide) (by decide) (by decide)⟩

/-! ### C4: sentinel outside the mask, a site index inside it -/

/-- The scattered grid has one cell per mask entry. -/
theorem scatterMasked_length : ∀ (ms : List Bool) (vals : List Int),
    (scatterMasked ms vals).length = ms.length := by
  intro ms
  induction ms with
  | nil => intro vals; rfl
  | cons b ms ih => intro vals; cases b <;> cases vals <;> simp [scatterMasked, ih]

/-- Counting `true` in a mapped mask is the length of the filtered list. -/
theorem count_true_map (l : List Point) (f : Point → Bool) :
    (l.map f).count true = (l.filter f).length := by
  induction l with
  | nil => rfl
  | cons a l ih => cases h : f a <;> simp [List.count_cons, h, ih, List.filter_cons]

/-- Cellwise description of the boolean-mask scatter: when the value list
has exactly one entry per `true` cell, a `false` cell reads the sentinel
and a `true` cell reads one of the values. -/
theorem scatterMasked_spec : ∀ (ms : List Bool) (vals : List Int),
    vals.length = ms.count true →
    ∀ k, k < ms.length →
      (ms.getD k false = false → (scatterMasked ms vals).getD k 0 = -1) ∧
      (ms.getD k false = true → (scatterMasked ms vals).getD k 0 ∈ vals) := by
  intro ms
  induction ms with
  | nil => intro vals h k hk; simp at hk
  | cons b ms ih =>
    intro vals h k hk
    cases b with
    | false =>
      have h' : vals.length = ms.count true := by simpa [List.count_cons] using h
      match k with
      | 0 => exact ⟨fun _ => rfl, fun hf => by simp at hf⟩
      | k + 1 =>
        have hrec := ih vals h' k (by simpa using hk)
        exact ⟨fun hf => hrec.1 (by simpa using hf), fun ht => hrec.2 (by simpa using ht)⟩
    | true =>
      match vals with
      | [] => exact absurd h.symm (by simp [List.count_cons])
      | v :: vs =>
        have h' : vs.length = ms.count true := by
          simp [List.count_cons] at h
          omega
        match k with
        | 0 => exact ⟨fun hf => by simp at hf, fun _ => by simp [scatterMasked]⟩
        | k + 1 =>
          have hrec := ih vs h' k (by simpa using hk)
          constructor
          · intro hf
            exact hrec.1 (by simpa using hf)
          · intro ht
            have := hrec.2 (by simpa using ht)
            simp [scatterMasked]
            right
            simpa using this

/-- The argmin fold stays below the bound as long as the seed and all
scanned indices do. -/
theorem foldl_argmin_lt (lt : Nat → Nat → Bool) (n : Nat) :
    ∀ (l : List Nat) (b : Nat), b < n → (∀ i ∈ l, i < n) →
      (l.foldl (fun best i => if lt i best then i else best) b) < n := by
  intro l
  induction l with
  | nil => intro b hb _; simpa using hb
  | cons a l ih =>
    intro b hb hall
    simp only [List.foldl_cons]
    apply ih
    · split
      · exact hall a (by simp)
      · exact hb
    · intro i hi
      exact hall i (List.mem_cons_of_mem _ hi)

/-- The scanned argmin over a positive count is below that count. -/
theorem argminScan_lt (lt : Nat → Nat → Bool) {n : Nat} (hn : 0 < n) :
    argminScan lt n < n :=
  foldl_argmin_lt lt n (List.range n) 0 hn (by intro i hi; simpa using hi)

/-- Every assignment produced in one solver step is a valid site index. -/
theorem assignStep_mem_lt (pts : List Point) (factors : List ℚ) (gin : List Point)
    (hp : pts ≠ []) : ∀ j ∈ assignStep pts factors gin, j < pts.length := by
  intro j hj
  obtain ⟨g, _, rfl⟩ := List.mem_map.mp hj
  exact argminScan_lt _ (List.length_pos.mpr hp)

/-- The flattened lattice has `resolution²` points. -/
theorem gridLattice_length (bnd : List Point) (res : Nat) :
    (gridLattice bnd res).length = res * res := by
  simp [gridLattice, Function.comp_def, List.map_const', List.sum_replicate, smul_eq_mul]

/-- Whatever its factor history, the loop's final assignment list is one
solver step at some factors. -/
theorem solveLoopAux_fst (pts gin : List Point) (ws tc : List ℚ) (tol damp : ℚ)
    (fpow : ℚ → ℚ → ℚ) :
    ∀ (rem : Nat) (f : List ℚ) (used : Nat), 1 ≤ rem →
      ∃ f', (solveLoopAux pts gin ws tc tol damp fpow rem f used).1 =
        assignStep pts f' gin := by
  intro rem
  induction rem with
  | zero => intro f used h; exact absurd h (by omega)
  | succ r ih =>
    intro f used _
    rw [solveLoopAux_succ]
    split
    · exact ⟨f, rfl⟩
    · match r with
      | 0 => exact ⟨f, rfl⟩
      | r' + 1 =>
        exact ih (updateFactors damp fpow tc (bincount pts.length (assignStep pts f gin)) ws f)
          (used + 1) (by omega)

/-- C4.  Every grid returned by the solver has `resolution²` cells; a cell
outside the inside-mask always reads the sentinel `-1`, and a cell inside
the mask reads the sentinel when the clamped weights sum to zero and a
valid site index (`0 ≤ s < n_sites`) otherwise. -/
theorem c4_grid_partition (pts : List Point) (ws : List ℚ) (bnd : List Point)
    (res mi : Nat) (tol damp : ℚ) (fpow : ℚ → ℚ → ℚ) (inside : Point → Bool)
    (g : List Int) (ax : List ℚ × List ℚ)
    (hlen : ws.length = pts.length)
    (hok : compute_weighted_areas pts ws bnd res mi tol damp fpow inside = .ok (g, ax)) :
    g.length = res * res ∧
    ∀ k, k < res * res →
      ((latticeMask bnd res inside).getD k false = false → g.getD k 0 = -1) ∧
      ((latticeMask bnd res inside).getD k false = true →
        (if (clampedWeights ws).sum = 0 then g.getD k 0 = -1
         else ∃ s : Nat, s < pts.length ∧ g.getD k 0 = Int.ofNat s)) := by
  unfold compute_weighted_areas at hok
  split at hok
  · exact absurd hok (by simp)
  · dsimp only at hok
    split at hok
    · exact absurd hok (by simp)
    · rename_i hin
      split at hok
      · rename_i htot
        rw [Except.ok.injEq, Prod.mk.injEq] at hok
        obtain ⟨hg, hax⟩ := hok
        subst hg
        constructor
        · simp
        · intro k hk
          have hval : (List.replicate (res * res) (-1 : Int)).getD k 0 = -1 := by
            rw [List.getD_eq_getElem _ _ (by simpa using hk)]
            simp
          exact ⟨fun _ => hval, fun _ => by rw [if_pos htot]; exact hval⟩
      · rename_i htot
        split at hok
        · exact absurd hok (by simp)
        · rename_i m
          rw [Except.ok.injEq, Prod.mk.injEq] at hok
          obtain ⟨hg, hax⟩ := hok
          subst hg
          have hpts : pts ≠ [] := by
            intro hp
            apply htot
            have hws : ws = [] := List.length_eq_zero.mp (by rw [hlen, hp]; rfl)
            simp [hws, clampedWeights]
          obtain ⟨f', hf'⟩ := solveLoopAux_fst pts (insideLattice bnd res inside) ws
            (targetCountsOf ws (insideLattice bnd res inside).length) tol damp fpow
            (m + 1) (initFactors pts.length ws) 0 (by omega)
          have hmaskLen : (latticeMask bnd res inside).length = res * res := by
            simp [latticeMask, gridLattice_length]
          have hcount : ((solveLoopAux pts (insideLattice bnd res inside) ws
              (targetCountsOf ws (insideLattice bnd res inside).length) tol damp fpow
              (m + 1) (initFactors pts.length ws) 0).1.map Int.ofNat).length
              = (latticeMask bnd res inside).count true := by
            rw [List.length_map, hf', assignStep, List.length_map, latticeMask,
              count_true_map]
            rfl
          constructor
          · rw [scatterMasked_length, hmaskLen]
          · intro k hk
            have hspec := scatterMasked_spec (latticeMask bnd res inside) _ hcount k
              (by rw [hmaskLen]; exact hk)
            refine ⟨hspec.1, fun ht => ?_⟩
            rw [if_neg htot]
            have hmem := hspec.2 ht
            rw [List.mem_map] at hmem
            obtain ⟨s, hs, hval⟩ := hmem
            rw [hf'] at hs
            exact ⟨s, assignStep_mem_lt pts f' (insideLattice bnd res inside) hpts s hs,
              hval.symm⟩

unseal Rat.add Rat.mul Rat.sub Rat.inv Rat.ofScientific in
/-- Witness for C4: the two-site run whose only inside cell (index 4)
holds site index 1, with the conclusion read off at that cell. -/
theorem c4_grid_partition_witness :
    ([1, 0] : List ℚ).length = ([(100, 100), (5, 5)] : List Point).length ∧
    compute_weighted_areas [(100, 100), (5, 5)] [1, 0] sqBoundary 3 1 (1/100) (1/5)
      powId sqInside
      = .ok ([-1, -1, -1, -1, 1, -1, -1, -1, -1], ([-1/2, 5, 21/2], [-1/2, 5, 21/2])) ∧
    ([-1, -1, -1, -1, 1, -1, -1, -1, -1] : List Int).length = 3 * 3 ∧
    ((latticeMask sqBoundary 3 sqInside).getD 4 false = true →
      (if (clampedWeights [1, 0]).sum = 0
        then ([-1, -1, -1, -1, 1, -1, -1, -1, -1] : List Int).getD 4 0 = -1
        else ∃ s : Nat, s < ([(100, 100), (5, 5)] : List Point).length ∧
          ([-1, -1, -1, -1, 1, -1, -1, -1, -1] : List Int).getD 4 0 = Int.ofNat s)) :=
  have hok : compute_weighted_areas [(100, 100), (5, 5)] [1, 0] sqBoundary 3 1 (1/100)
      (1/5) powId sqInside
      = .ok ([-1, -1, -1, -1, 1, -1, -1, -1, -1], ([-1/2, 5, 21/2], [-1/2, 5, 21/2])) :=
    by decide
  ⟨by decide, hok,
    (c4_grid_partition [(100, 100), (5, 5)] [1, 0] sqBoundary 3 1 (1/100) (1/5) powId
      sqInside _ _ (by decide) hok).1,
    fun ht => ((c4_grid_partition [(100, 100), (5, 5)] [1, 0] sqBoundary 3 1 (1/100) (1/5)
      powId sqInside _ _ (by decide) hok).2 4 (by decide)).2 ht⟩

/-! ### C3: the assignment step is the deterministic weighted argmin -/

/-- Squared distances are nonnegative. -/
theorem dist2_nonneg (p q : Point) : 0 ≤ dist2 p q := by
  unfold dist2
  positivity

/-- Comparing square roots scaled by positive divisors is comparing the
cross-multiplied radicands. -/
theorem sqrt_div_lt_sqrt_div_iff {A B fa fb : ℝ} (hA : 0 ≤ A) (hB : 0 ≤ B)
    (ha : 0 < fa) (hb : 0 < fb) :
    Real.sqrt A / fa < Real.sqrt B / fb ↔ A * fb ^ 2 < B * fa ^ 2 := by
  rw [div_lt_div_iff₀ ha hb]
  rw [show A * fb ^ 2 = (Real.sqrt A * fb) ^ 2 by rw [mul_pow, Real.sq_sqrt hA],
    show B * fa ^ 2 = (Real.sqrt B * fa) ^ 2 by rw [mul_pow, Real.sq_sqrt hB]]
  exact (pow_lt_pow_iff_left₀ (by positivity) (by positivity) two_ne_zero).symm

/-- The executable cross-multiplied comparison agrees with the real-valued
weighted-distance comparison whenever both factors are positive, as they
are for every factor vector the solver produces. -/
theorem wdLt_iff_realWeightedDist (pts : List Point) (factors : List ℚ) (g : Point)
    (a b : Nat) (hfa : 0 < factors.getD a 0) (hfb : 0 < factors.getD b 0) :
    wdLt pts factors g a b = true ↔
      realWeightedDist pts factors g a < realWeightedDist pts factors g b := by
  unfold wdLt realWeightedDist
  rw [decide_eq_true_iff]
  rw [sqrt_div_lt_sqrt_div_iff (by exact_mod_cast dist2_nonneg _ _)
    (by exact_mod_cast dist2_nonneg _ _) (by exact_mod_cast hfa) (by exact_mod_cast hfb)]
  constructor
  · intro h
    exact_mod_cast h
  · intro h
    exact_mod_cast h

/-- The scanned argmin picks an index below the bound whose value is a
minimum, and every smaller index has a strictly larger value — i.e. the
first minimum, numpy's `argmin` tie-break. -/
theorem argminScan_spec {α : Type} [LinearOrder α] (v : Nat → α) :
    ∀ (n : Nat) (lt : Nat → Nat → Bool),
      (∀ a b, a < n → b < n → (lt a b = true ↔ v a < v b)) → 0 < n →
      argminScan lt n < n ∧ (∀ i, i < n → v (argminScan lt n) ≤ v i) ∧
        ∀ i, i < argminScan lt n → v (argminScan lt n) < v i := by
  intro n
  induction n with
  | zero => intro lt h h0; exact absurd h0 (by omega)
  | succ m ih =>
    intro lt hlt h0
    by_cases hm : m = 0
    · subst hm
      have h1 : argminScan lt 1 = 0 := by
        unfold argminScan
        rw [show List.range 1 = [0] from rfl]
        simp
      rw [h1]
      refine ⟨by omega, ?_, ?_⟩
      · intro i hi
        have : i = 0 := by omega
        subst this
        exact le_refl _
      · intro i hi
        exact absurd hi (by omega)
    · have hstep : argminScan lt (m + 1) =
          if lt m (argminScan lt m) then m else argminScan lt m := by
        unfold argminScan
        rw [List.range_succ, List.foldl_append]
        rfl
      obtain ⟨hb, hmin, hstrict⟩ := ih lt (fun a b ha hb => hlt a b (by omega) (by omega))
        (by omega)
      rw [hstep]
      by_cases hc : lt m (argminScan lt m) = true
      · rw [if_pos hc]
        have hvm : v m < v (argminScan lt m) :=
          (hlt m (argminScan lt m) (by omega) (by omega)).mp hc
        refine ⟨by omega, ?_, ?_⟩
        · intro i hi
          rcases Nat.lt_succ_iff_lt_or_eq.mp hi with h | h
          · exact le_of_lt (lt_of_lt_of_le hvm (hmin i h))
          · subst h
            exact le_refl _
        · intro i hi
          exact lt_of_lt_of_le hvm (hmin i hi)
      · rw [if_neg hc]
        have hvm : v (argminScan lt m) ≤ v m := by
          have hiff := hlt m (argminScan lt m) (by omega) (by omega)
          exact not_lt.mp (fun hlt' => hc (hiff.mpr hlt'))
        refine ⟨by omega, ?_, hstrict⟩
        intro i hi
        rcases Nat.lt_succ_iff_lt_or_eq.mp hi with h | h
        · exact hmin i h
        · subst h
          exact hvm

/-- C3.  In any solver iteration (the step runs at the current factors,
which are always positive), each inside grid point `k` is assigned a valid
site index whose real weighted distance — Euclidean distance divided by
the site's factor — is minimal, and every lower-indexed site has strictly
larger weighted distance, so ties go to the lowest index; the step is a
Lean function of the sites, factors and grid point, hence deterministic. -/
theorem c3_assignment_argmin (pts : List Point) (factors : List ℚ) (gin : List Point)
    (k : Nat) (hp : pts ≠ [])
    (hf : ∀ i, i < pts.length → 0 < factors.getD i 0)
    (hk : k < gin.length) :
    (assignStep pts factors gin).getD k 0 < pts.length ∧
    (∀ l, l < pts.length →
      realWeightedDist pts factors (gin.getD k (0, 0))
          ((assignStep pts factors gin).getD k 0) ≤
        realWeightedDist pts factors (gin.getD k (0, 0)) l) ∧
    (∀ l, l < (assignStep pts factors gin).getD k 0 →
      realWeightedDist pts factors (gin.getD k (0, 0))
          ((assignStep pts factors gin).getD k 0) <
        realWeightedDist pts factors (gin.getD k (0, 0)) l) := by
  have h1 : (assignStep pts factors gin).getD k 0 =
      assignPoint pts factors (gin.getD k (0, 0)) := by
    unfold assignStep
    rw [List.getD_eq_getElem _ _ (by simpa using hk), List.getElem_map]
    congr 1
    rw [List.getD_eq_getElem _ _ hk]
  rw [h1]
  unfold assignPoint
  exact argminScan_spec (realWeightedDist pts factors (gin.getD k (0, 0))) pts.length
    (wdLt pts factors (gin.getD k (0, 0)))
    (fun a b ha hb => wdLt_iff_realWeightedDist pts factors (gin.getD k (0, 0)) a b
      (hf a ha) (hf b hb))
    (List.length_pos.mpr hp)

unseal Rat.add Rat.mul Rat.sub Rat.inv Rat.ofScientific in
/-- Witness for C3: two sites with factors `[1, 2]` and one grid point,
with the minimality conclusion instantiated at site `0`. -/
theorem c3_assignment_argmin_witness :
    (([(0, 0), (3, 0)] : List Point) ≠ [] ∧
     (∀ i, i < ([(0, 0), (3, 0)] : List Point).length →
        0 < ([1, 2] : List ℚ).getD i 0) ∧
     0 < ([(1, 0)] : List Point).length) ∧
    (assignStep [(0, 0), (3, 0)] [1, 2] [(1, 0)]).getD 0 0 <
      ([(0, 0), (3, 0)] : List Point).length ∧
    realWeightedDist [(0, 0), (3, 0)] [1, 2] (([(1, 0)] : List Point).getD 0 (0, 0))
        ((assignStep [(0, 0), (3, 0)] [1, 2] [(1, 0)]).getD 0 0) ≤
      realWeightedDist [(0, 0), (3, 0)] [1, 2] (([(1, 0)] : List Point).getD 0 (0, 0)) 0 :=
  ⟨⟨by decide, by decide, by decide⟩,
    (c3_assignment_argmin [(0, 0), (3, 0)] [1, 2] [(1, 0)] 0 (by decide) (by decide)
      (by decide)).1,
    ((c3_assignment_argmin [(0, 0), (3, 0)] [1, 2] [(1, 0)] 0 (by decide) (by decide)
      (by decide)).2.1) 0 (by decide)⟩

/-! ### C9: every output ring is closed -/

/-- C9.  Under the contour library's contract — `find_contours` yields
closed contours (first point equals last point) and `approximate_polygon`
preserves a polyline's first and last points, as Douglas–Peucker
simplification does — every ring in every entry of the orchestrator's
output has identical first and last coordinate pair: the pixel-to-planar
interpolation and the geographic back-projection are applied pointwise, so
closure survives both. -/
theorem c9_rings_closed (toXY toLonLat : Point → Point)
    (containsPoint : List Point → Point → Bool)
    (fc : List ℚ → List (List Point)) (ap : ℚ → List Point → List Point)
    (fpow : ℚ → ℚ → ℚ) (ids : List PyKey) (pts : List Point) (ws : List ℚ)
    (bnd : List Point) (res mi : Nat) (tol damp st : ℚ)
    (m : List (PyKey × List (List Point)))
    (hfc : ∀ mask : List ℚ, ∀ c ∈ fc mask, c.head? = c.getLast?)
    (hap : ∀ (t : ℚ) (c : List Point),
      (ap t c).head? = c.head? ∧ (ap t c).getLast? = c.getLast?)
    (hm : calculate_weighted_polygons toXY toLonLat containsPoint fc ap fpow ids pts ws
      bnd res mi tol damp st = .ok m) :
    ∀ e ∈ m, ∀ ring ∈ e.2, ring.head? = ring.getLast? := by
  unfold calculate_weighted_polygons at hm
  split at hm
  · exact absurd hm (by simp)
  · dsimp only at hm
    split at hm
    · exact absurd hm (by simp)
    · rw [Except.ok.injEq] at hm
      subst hm
      intro e he ring hr
      rw [List.mem_map] at he
      obtain ⟨i, hi, rfl⟩ := he
      dsimp only at hr
      rw [List.mem_map] at hr
      obtain ⟨seg, hseg, rfl⟩ := hr
      rw [getVectorBoundaries, getD_map_range _ _ (List.mem_range.mp hi)] at hseg
      rw [regionSegments, List.mem_map] at hseg
      obtain ⟨contour, hc, rfl⟩ := hseg
      have hclosed : (if 0 < st then ap st contour else contour).head? =
          (if 0 < st then ap st contour else contour).getLast? := by
        split
        · rw [(hap st contour).1, (hap st contour).2]
          exact hfc _ contour hc
        · exact hfc _ contour hc
      dsimp only
      rw [List.head?_map, List.head?_map, List.getLast?_map, List.getLast?_map, hclosed]

unseal Rat.add Rat.mul Rat.sub Rat.inv Rat.ofScientific in
/-- Witness for C9: a contour tracer that always yields one closed
triangle contour, the identity simplifier, and the resulting output ring
checked to be closed. -/
theorem c9_rings_closed_witness :
    calculate_weighted_polygons id id sqContains (fun _ => [[(0, 0), (1, 1), (0, 0)]])
      (fun _ c => c) powId [PyKey.str "a"] [(5, 5)] [1] sqBoundary 3 1 (1/100) (1/5) 2
      = .ok [(PyKey.int 0, [[(-1/2, -1/2), (5, 5), (-1/2, -1/2)]])] ∧
    ([(-1/2, -1/2), (5, 5), (-1/2, -1/2)] : List Point).head? =
      ([(-1/2, -1/2), (5, 5), (-1/2, -1/2)] : List Point).getLast? :=
  have hm : calculate_weighted_polygons id id sqContains
      (fun _ => [[(0, 0), (1, 1), (0, 0)]]) (fun _ c => c) powId [PyKey.str "a"]
      [(5, 5)] [1] sqBoundary 3 1 (1/100) (1/5) 2
      = .ok [(PyKey.int 0, [[(-1/2, -1/2), (5, 5), (-1/2, -1/2)]])] := by decide
  ⟨hm, c9_rings_closed id id sqContains (fun _ => [[(0, 0), (1, 1), (0, 0)]])
    (fun _ c => c) powId [PyKey.str "a"] [(5, 5)] [1] sqBoundary 3 1 (1/100) (1/5) 2
    [(PyKey.int 0, [[(-1/2, -1/2), (5, 5), (-1/2, -1/2)]])]
    (fun _ c hc => by rw [List.mem_singleton.mp hc]; rfl)
    (fun t c => ⟨rfl, rfl⟩) hm
    (PyKey.int 0, [[(-1/2, -1/2), (5, 5), (-1/2, -1/2)]]) (by simp)
    [(-1/2, -1/2), (5, 5), (-1/2, -1/2)] (by simp)⟩
